import Mathlib

/-!
Verification of the patch-queue management engine of git-buildpackage
(`gbp/scripts/pq.py` and `gbp/git/modifier.py`).

Python strings are embedded as `List Char`; Python `None` flowing through
an optional value becomes `Option`; fallible functions return `Except`.
The git and filesystem collaborators (`GitRepository`, `PatchSeries`,
`tempfile`, `shutil`), which are not part of the two analysed modules, are
embedded as explicit oracles and state transitions on a small repository
state, with an event trace recording every primitive call the engine makes.
-/

/-- Python strings, embedded as lists of characters. -/
abbrev Str := List Char

/-- Decidable equality on `Except`, so concrete runs can be checked by
`decide`. -/
instance {ε α : Type} [DecidableEq ε] [DecidableEq α] :
    DecidableEq (Except ε α) := fun a b =>
  match a, b with
  | .error e, .error f =>
    if h : e = f then isTrue (by rw [h])
    else isFalse (by intro hh; cases hh; exact h rfl)
  | .ok x, .ok y =>
    if h : x = y then isTrue (by rw [h])
    else isFalse (by intro hh; cases hh; exact h rfl)
  | .error _, .ok _ => isFalse (by intro hh; cases hh)
  | .ok _, .error _ => isFalse (by intro hh; cases hh)

/-! ## Branch naming (`pq.py` lines 35-73) -/

/-- Source constant `PQ_BRANCH_PREFIX = "patch-queue/"`. -/
def pqBranchMarker : Str := "patch-queue/".toList

/-- Source `PATCH_DIR = "debian/patches/"`. -/
def PATCH_DIR : Str := "debian/patches/".toList

/-- Source `is_pq_branch(branch)`: `branch.startswith(PQ_BRANCH_PREFIX)`. -/
def is_pq_branch (branch : Str) : Bool :=
  pqBranchMarker.isPrefixOf branch

/-- Source `pq_branch_name(branch)`: returns `PQ_BRANCH_PREFIX + branch` when
`branch` is not a patch-queue branch, and (implicitly) Python `None` otherwise. -/
def pq_branch_name (branch : Str) : Option Str :=
  if is_pq_branch branch then none else some ( pqBranchMarker ++ branch)

/-- Source `pq_branch_base(pq_branch)`: strips the prefix when present,
otherwise (implicitly) returns Python `None`. -/
def pq_branch_base (pq_branch : Str) : Option Str :=
  if is_pq_branch pq_branch then some (pq_branch.drop pqBranchMarker.length) else none

/-! ## `write_patch` (`pq.py` lines 75-116)

The body of the patch file is a list of lines, each line carrying its
trailing newline, exactly as Python file iteration yields them. -/

/-- Python whitespace characters recognised by `str.strip()`. -/
def pyIsSpace (c : Char) : Bool :=
  c = ' ' ∨ c = '\t' ∨ c = '\n' ∨ c = '\r' ∨ c = '\x0b' ∨ c = '\x0c'

/-- Python `s.strip()`: drop whitespace from both ends. -/
def pyStrip (s : Str) : Str :=
  ((s.dropWhile pyIsSpace).reverse.dropWhile pyIsSpace).reverse

/-- Python `s.split(" ", 1)[1]`: the part of `s` after the first space,
absent when `s` has no space. -/
def splitFirstSpacePart : Str → Option Str
  | [] => none
  | c :: cs => if c = ' ' then some cs else splitFirstSpacePart cs

/-- The topic trailer marker scanned for by `write_patch`:
`"gbp-pq-topic: "`. -/
def topicMarker : Str := "gbp-pq-topic: ".toList

/-- Source test `line.lower().startswith("gbp-pq-topic: ")`. -/
def isTopicLine (l : Str) : Bool :=
  topicMarker.isPrefixOf (l.map Char.toLower)

/-- Source `line.split(" ",1)[1].strip()`, the topic value of a matched
line.  A matched line always contains a space (the marker does), so the
`none` fallback is unreachable on matched lines. -/
def topicValue (l : Str) : Str :=
  pyStrip ((splitFirstSpacePart l).getD [])

/-- The `for line in old` loop of `write_patch`: lines matching the topic
marker are skipped and (re)bind the topic, all other lines are copied to the
temporary output file.  Returns the copied lines and the final topic. -/
def write_patch_body : List Str → Option Str → List Str × Option Str
  | [], topic => ([], topic)
  | l :: ls, topic =>
    if isTopicLine l then write_patch_body ls (some (topicValue l))
    else
      let r := write_patch_body ls topic
      (l :: r.1, r.2)

/-- The whole line-processing of `write_patch`: `old.readline()` discards the
first line, then the loop above runs with no topic yet. -/
def write_patch_lines (ls : List Str) : List Str × Option Str :=
  match ls with
  | [] => ([], none)
  | _ :: rest => write_patch_body rest none

/-- What the regex metacharacter `.` matches in Python without `re.DOTALL`:
any character other than a newline. -/
def notNewline (c : Char) : Bool := c ≠ '\n'

/-- Source `re.match("[0-9]+-(?P<name>.+)", oldname)` under Python `re`
semantics: a maximal run of leading ASCII digits, a hyphen, then `.+` which
is greedy and does not cross a newline; returns the `name` group. -/
def matchNumPatchName (s : Str) : Option Str :=
  if (s.takeWhile Char.isDigit).isEmpty then none
  else
    match s.drop (s.takeWhile Char.isDigit).length with
    | '-' :: r =>
      if (r.takeWhile notNewline).isEmpty then none
      else some (r.takeWhile notNewline)
    | _ => none

/-- Lines 97-101 of `write_patch`: the destination base name, given the
`patch_numbers` option and the original base name. -/
def write_patch_newname (patch_numbers : Bool) (oldname : Str) : Str :=
  if patch_numbers then oldname
  else
    match matchNumPatchName oldname with
    | some name => name
    | none => oldname

/-- Follows the spec's words for C6: the anchored pattern `[0-9]+-(.+)`
matching the whole name (one-or-more digits, a hyphen, a nonempty
remainder), which is stripped to the remainder. -/
def specStripName (s : Str) : Str :=
  match s.drop (s.takeWhile Char.isDigit).length with
  | '-' :: r =>
    if (s.takeWhile Char.isDigit).isEmpty ∨ r.isEmpty then s else r
  | _ => s

/-- Source lines 103-106: the destination directory, `PATCH_DIR` joined
with the topic when one was found.  `os.path.join` concatenates directly
because `PATCH_DIR` ends with a separator. -/
def write_patch_topicdir (topic : Option Str) : Str :=
  match topic with
  | some t => PATCH_DIR ++ t
  | none => PATCH_DIR

/-- C5 counterexample input: a `From` line, two topic trailers with distinct
values, and one body line. -/
def cexPatchLines : List Str :=
  ["From abc\n".toList, "Gbp-Pq-Topic: a\n".toList,
   "Gbp-Pq-Topic: b\n".toList, "body\n".toList]

/-! ## `get_maintainer_from_control` (`pq.py` lines 151-160)

The shell pipeline `sed -n -e "s/Maintainer: \+\(.*\)/\1/p" debian/control`
is embedded by its observable output: the list of lines it printed (the
values of `Maintainer:` fields found in the control file). -/

/-- The `(?P<email>.*)>` tail of the maintainer regex: `.*` is greedy and
does not cross a newline, then a literal `>`; captures the email group up to
the last reachable `>`. -/
def emailGroup : Str → Option Str
  | [] => none
  | c :: rest =>
    match (if notNewline c then (emailGroup rest).map (c :: ·) else none) with
    | some r => some r
    | none => if c = '>' then some [] else none

/-- The `' '* <' part between the name group and the email group: skip the
spaces greedily, require a literal `<`, then match the email group. -/
def ltTail (l : Str) : Option Str :=
  match l.dropWhile (fun c => c = ' ') with
  | '<' :: rest => emailGroup rest
  | _ => none

/-- Source `re.match('(?P<name>.*[^ ]) *<(?P<email>.*)>', maintainer)` under
Python `re` semantics: backtracking places the final `[^ ]` character of the
name group as far right as possible, `.*` being greedy and unable to cross a
newline; returns the name and email groups on a match. -/
def maintainerMatch : Str → Option (Str × Str)
  | [] => none
  | c :: rest =>
    match (if notNewline c then
             (maintainerMatch rest).map (fun p => (c :: p.1, p.2))
           else none) with
    | some r => some r
    | none =>
      if c = ' ' then none
      else
        match ltTail rest with
        | some e => some ([c], e)
        | none => none

/-- Source `get_maintainer_from_control()`: takes `readlines()[0]` of the
`sed` output — which raises `IndexError` (the `error` case) when the control
file has no `Maintainer:` field and the pipeline printed nothing — strips
it, and applies the maintainer regex, returning `(None, None)` when the
regex does not match. -/
def get_maintainer_from_control (sedLines : List Str) :
    Except Unit (Option Str × Option Str) :=
  match sedLines with
  | [] => Except.error ()
  | l :: _ =>
    match maintainerMatch (pyStrip l) with
    | some (n, e) => Except.ok (some n, some e)
    | none => Except.ok (none, none)

/-! ## `GitModifier` (`gbp/git/modifier.py` lines 31-77) -/

/-- Source `GitModifier`: optional name, email and date, each either Python
`None` or a string. -/
structure GitModifier where
  name : Option Str
  email : Option Str
  date : Option Str

/-- Python truthiness of an optional string (`if self.name:`): `None` and
the empty string are falsy. -/
def truthy : Option Str → Bool
  | none => false
  | some s => !s.isEmpty

/-- The environment key `'GIT_%s_NAME' % who` and friends. -/
def gitEnvKey (who field : Str) : Str :=
  "GIT_".toList ++ who ++ "_".toList ++ field

/-- Source `GitModifier._get_env`: upper-cases the role, raises
`GitModifierError` (the `error` case) unless the result is `AUTHOR` or
`COMMITTER`, then builds the environment dictionary — modelled as an
association list in Python dict insertion order — with one entry per truthy
field. -/
def GitModifier.getEnv (m : GitModifier) (who : Str) :
    Except Unit (List (Str × Str)) :=
  if who.map Char.toUpper = "AUTHOR".toList ∨
     who.map Char.toUpper = "COMMITTER".toList then
    Except.ok
      ((if truthy m.name then
          [(gitEnvKey (who.map Char.toUpper) ("NAME".toList), m.name.getD [])]
        else []) ++
       (if truthy m.email then
          [(gitEnvKey (who.map Char.toUpper) ("EMAIL".toList), m.email.getD [])]
        else []) ++
       (if truthy m.date then
          [(gitEnvKey (who.map Char.toUpper) ("DATE".toList), m.date.getD [])]
        else []))
  else Except.error ()

/-! ## `import_quilt_patches` (`pq.py` lines 163-250)

The git repository is embedded as a state (branch set, active branch,
number of leftover snapshot directories) plus an oracle environment:

* `history` — modelled from the spec: `repo.get_commits(options=['-%d' %
  tries], first_parent=True)` (in `gbp.git`, outside the analysed sources)
  returns the first `tries` commits of the first-parent chain from the tip
  of the current branch, most recent first; `history` is that full chain and
  commits are abstract identifiers.
* `createOk c` — whether `repo.create_branch(pq_branch, c)` succeeds.
* `applyOk c j` — whether `apply_and_commit_patch` succeeds for the `j`-th
  patch of the series when the queue was created at commit `c`.
* `numPatches` — the length of the series read by
  `PatchSeries.read_series_file` (also outside the analysed sources).

Every call into the collaborators is recorded in an event trace. -/

/-- One call of the engine into its git/filesystem collaborators. -/
inductive Ev where
  | checkout (b : Str)
  | createBranch (b : Str) (commit : Nat)
  | setBranch (b : Str)
  | applyPatch (j : Nat)
  | deleteBranch (b : Str)
  | mkSnapshot
  | rmSnapshot
  deriving DecidableEq

/-- The repository state mutated by the engine. -/
structure RepoState where
  branches : List Str
  current : Str
  snapshots : Nat
  deriving DecidableEq

/-- The oracle environment for one `import_quilt_patches` run. -/
structure ImportEnv where
  history : List Nat
  createOk : Nat → Bool
  applyOk : Nat → Nat → Bool
  numPatches : Nat

/-- `repo.has_branch`. -/
def hasBranch (st : RepoState) (b : Str) : Bool := st.branches.contains b

/-- `repo.create_branch` at a commit: the branch set gains `b`. -/
def createBranchSt (st : RepoState) (b : Str) : RepoState :=
  { st with branches := st.branches ++ [b] }

/-- `repo.delete_branch`. -/
def deleteBranchSt (st : RepoState) (b : Str) : RepoState :=
  { st with branches := st.branches.filter (fun x => x ≠ b) }

/-- `repo.set_branch` / `repo.checkout`. -/
def setBranchSt (st : RepoState) (b : Str) : RepoState :=
  { st with current := b }

/-- The `GbpError`s raised by `import_quilt_patches` and `drop_pq`, plus the
ill-typed Python state reached when `pq_branch_name` returns `None` and the
`None` would flow into git primitives (never reached from the preconditions
the claims assume). -/
inductive GbpErr where
  | alreadyOnPq
  | pqExists
  | cantDrop
  | cannotCreate
  | couldNotApply
  | nonePq
  deriving DecidableEq

/-- Source `drop_pq(repo, branch)` (`pq.py` lines 300-311). -/
def drop_pq (st : RepoState) (branch : Str) :
    Except GbpErr (RepoState × List Ev) :=
  if is_pq_branch branch then Except.error GbpErr.cantDrop
  else
    match pq_branch_name branch with
    | some pq =>
      if hasBranch st pq then
        Except.ok (deleteBranchSt st pq, [Ev.deleteBranch pq])
      else Except.ok (st, [])
    | none => Except.error GbpErr.nonePq

/-- The `for patch in queue` loop (`pq.py` lines 233-243): apply the patches
in order; on the first failure switch back to `branch`, delete the
patch-queue branch and report failure; report success after the last patch. -/
def applyLoop (ap : Nat → Bool) (branch pq : Str) (st : RepoState) :
    List Nat → RepoState × List Ev × Bool
  | [] => (st, [], true)
  | j :: rest =>
    if ap j then
      let r := applyLoop ap branch pq st rest
      (r.1, Ev.applyPatch j :: r.2.1, r.2.2)
    else
      (deleteBranchSt (setBranchSt st branch) pq,
       [Ev.applyPatch j, Ev.setBranch branch, Ev.deleteBranch pq], false)

/-- The `for commit in commits` time-machine loop (`pq.py` lines 225-245):
create the patch-queue branch at the candidate (a creation failure raising
immediately), switch to it, run the patch loop; stop on full success, fall
through to the next candidate on a patch failure, and raise the summary
error after the last candidate. -/
def tryLoop (env : ImportEnv) (branch pq : Str) (st : RepoState) :
    List Nat → Except (GbpErr × RepoState × List Ev) (RepoState × List Ev)
  | [] => Except.error (GbpErr.couldNotApply, st, [])
  | c :: rest =>
    if env.createOk c then
      let st1 := setBranchSt (createBranchSt st pq) pq
      let r := applyLoop (env.applyOk c) branch pq st1 (List.range env.numPatches)
      if r.2.2 then
        Except.ok (r.1, Ev.createBranch pq c :: Ev.setBranch pq :: r.2.1)
      else
        match tryLoop env branch pq r.1 rest with
        | Except.ok (st4, evs4) =>
          Except.ok (st4, (Ev.createBranch pq c :: Ev.setBranch pq :: r.2.1) ++ evs4)
        | Except.error (e, st4, evs4) =>
          Except.error (e, st4, (Ev.createBranch pq c :: Ev.setBranch pq :: r.2.1) ++ evs4)
    else Except.error (GbpErr.cannotCreate, st, [Ev.createBranch pq c])

/-- Lines 200-209 of `import_quilt_patches`: normalise the branch and
compute the patch-queue branch name, handling the already-on-a-patch-queue
precondition. -/
def importResolve (st : RepoState) (branch : Str) (force : Bool) :
    Except GbpErr (Str × Str × RepoState × List Ev) :=
  if is_pq_branch branch then
    if force then
      match pq_branch_base branch with
      | some b =>
        match pq_branch_name b with
        | some pq => Except.ok (b, pq, setBranchSt st b, [Ev.checkout b])
        | none => Except.error GbpErr.nonePq
      | none => Except.error GbpErr.nonePq
    else Except.error GbpErr.alreadyOnPq
  else
    match pq_branch_name branch with
    | some pq => Except.ok (branch, pq, st, [])
    | none => Except.error GbpErr.nonePq

/-- Lines 211-216 of `import_quilt_patches`: the existing-branch
precondition — an existing patch-queue branch is fatal without `force` and
dropped with it. -/
def importCheckExisting (st1 : RepoState) (branch pq : Str) (force : Bool) :
    Except GbpErr (RepoState × List Ev) :=
  if hasBranch st1 pq then
    if force then drop_pq st1 branch
    else Except.error GbpErr.pqExists
  else Except.ok (st1, [])

/-- Lines 211-249 of `import_quilt_patches`, after branch normalisation:
the existing-branch precondition, candidate enumeration, the `safe_patches`
snapshot when more than one candidate was enumerated, the time-machine
loop, and the snapshot removal that only the success path reaches (an
exception skips it). -/
def importAfterResolve (env : ImportEnv) (branch pq : Str) (force : Bool)
    (tries : Nat) (st1 : RepoState) (evs1 : List Ev) :
    Except (GbpErr × RepoState × List Ev) (RepoState × List Ev) :=
  match importCheckExisting st1 branch pq force with
  | Except.error e => Except.error (e, st1, evs1)
  | Except.ok (st2, evs2) =>
    let commits := env.history.take tries
    let st3 := if commits.length > 1 then
                 { st2 with snapshots := st2.snapshots + 1 }
               else st2
    let evs3 : List Ev := if commits.length > 1 then [Ev.mkSnapshot] else []
    match tryLoop env branch pq st3 commits with
    | Except.error (e, st4, evs4) =>
      Except.error (e, st4, evs1 ++ evs2 ++ evs3 ++ evs4)
    | Except.ok (st4, evs4) =>
      if commits.length > 1 then
        Except.ok ({ st4 with snapshots := st4.snapshots - 1 },
                   evs1 ++ evs2 ++ evs3 ++ evs4 ++ [Ev.rmSnapshot])
      else Except.ok (st4, evs1 ++ evs2 ++ evs3 ++ evs4)

/-- Source `import_quilt_patches(repo, branch, series, tries, force)`:
branch normalisation followed by the rest of the import. -/
def import_quilt_patches (env : ImportEnv) (st0 : RepoState) (branch0 : Str)
    (tries : Nat) (force : Bool) :
    Except (GbpErr × RepoState × List Ev) (RepoState × List Ev) :=
  match importResolve st0 branch0 force with
  | Except.error e => Except.error (e, st0, [])
  | Except.ok (branch, pq, st1, evs1) =>
    importAfterResolve env branch pq force tries st1 evs1

/-- All patches of the series apply at candidate `c`. -/
def applyAll (env : ImportEnv) (c : Nat) : Bool :=
  (List.range env.numPatches).all (env.applyOk c)

/-- Candidate `c` is consumed and rolled back by the time machine: branch
creation succeeds but some patch fails to apply. -/
def candFails (env : ImportEnv) (c : Nat) : Bool :=
  env.createOk c && !applyAll env c

/-- The state after a rolled-back candidate attempt: back on `branch`, the
patch-queue branch deleted. -/
def failState (st : RepoState) (branch pq : Str) : RepoState :=
  { branches := st.branches.filter (fun x => x ≠ pq), current := branch,
    snapshots := st.snapshots }

/-- The events of the patch loop on the index list `js`. -/
def applyTraceJs (ap : Nat → Bool) (branch pq : Str) (js : List Nat) : List Ev :=
  match js.dropWhile ap with
  | [] => (js.takeWhile ap).map Ev.applyPatch
  | j :: _ => (js.takeWhile ap).map Ev.applyPatch ++
      [Ev.applyPatch j, Ev.setBranch branch, Ev.deleteBranch pq]

/-- The events of one candidate attempt. -/
def candTrace (env : ImportEnv) (branch pq : Str) (c : Nat) : List Ev :=
  Ev.createBranch pq c :: Ev.setBranch pq ::
    applyTraceJs (env.applyOk c) branch pq (List.range env.numPatches)

/-- Line 379 of `main`: `tries = options.time_machine if
(options.time_machine > 0) else 1`. -/
def main_import_tries (time_machine : Int) : Int :=
  if time_machine > 0 then time_machine else 1

/-- Prepend one event to the trace of an engine result, on both the success
and the error channel. -/
def consEv (e : Ev) :
    Except (GbpErr × RepoState × List Ev) (RepoState × List Ev) →
    Except (GbpErr × RepoState × List Ev) (RepoState × List Ev)
  | Except.ok (st, evs) => Except.ok (st, e :: evs)
  | Except.error (er, st, evs) => Except.error (er, st, e :: evs)

/-! ## Theorems -/

/-- A list is a `isPrefixOf` of itself followed by anything. -/
theorem isPrefixOf_append_self (p l : List Char) : p.isPrefixOf (p ++ l) = true := by
  induction p with
  | nil => simp [List.isPrefixOf]
  | cons a as ih => simp [List.isPrefixOf, ih]

/-- Dropping the length of the left summand of an append returns the right summand. -/
theorem drop_length_append_left (p l : List Char) : (p ++ l).drop p.length = l := by
  induction p with
  | nil => simp
  | cons a as ih => simp [ih]

/-- C3: for every branch name `b` with `is_pq_branch b = false`,
`pq_branch_name b` succeeds, feeding its result to `pq_branch_base`
round-trips back to `b`, and the produced name is a patch-queue branch. -/
theorem pq_branch_roundtrip (b : Str) (h : is_pq_branch b = false) :
    (pq_branch_name b).bind pq_branch_base = some b ∧
    (pq_branch_name b).map is_pq_branch = some true := by
  have hpq : is_pq_branch ( pqBranchMarker ++ b) = true := by
    simp [is_pq_branch, isPrefixOf_append_self]
  constructor
  · simp [pq_branch_name, h, Option.bind, pq_branch_base, hpq,
      drop_length_append_left]
  · simp [pq_branch_name, h, hpq]

/-- Witness for C3 at the concrete branch name `master`. -/
theorem pq_branch_roundtrip_witness :
    is_pq_branch ("master".toList) = false ∧
    ((pq_branch_name ("master".toList)).bind pq_branch_base = some ("master".toList) ∧
     (pq_branch_name ("master".toList)).map is_pq_branch = some true) :=
  ⟨by decide, pq_branch_roundtrip ("master".toList) (by decide)⟩

/-- C4 counterexample: on a branch that already carries the prefix,
`pq_branch_name` returns Python `None`, not the branch unchanged. -/
theorem pq_branch_name_pq_counterexample :
    pq_branch_name ("patch-queue/master".toList) = none ∧
    pq_branch_name ("patch-queue/master".toList) ≠ some ("patch-queue/master".toList) := by
  constructor
  · decide
  · decide

/-- C4 amended: `pq_branch_name` returns Python `None` (absent) on a branch
that is already a patch-queue branch, and the fixed prefix concatenated with
the name on every other branch. -/
theorem pq_branch_name_spec :
    (∀ b : Str, is_pq_branch b = true → pq_branch_name b = none) ∧
    (∀ b : Str, is_pq_branch b = false →
       pq_branch_name b = some ( pqBranchMarker ++ b)) := by
  constructor
  · intro b h; simp [pq_branch_name, h]
  · intro b h; simp [pq_branch_name, h]

/-- Witness for C4 amended at `patch-queue/master` and `foo`. -/
theorem pq_branch_name_spec_witness :
    pq_branch_name ("patch-queue/master".toList) = none ∧
    pq_branch_name ("foo".toList) = some ( pqBranchMarker ++ "foo".toList) :=
  ⟨pq_branch_name_spec.1 ("patch-queue/master".toList) (by decide),
   pq_branch_name_spec.2 ("foo".toList) (by decide)⟩

/-- `takeWhile` keeps a list all of whose elements satisfy the predicate. -/
theorem takeWhile_eq_self_of_all {p : Char → Bool} :
    ∀ l : Str, (∀ a ∈ l, p a = true) → l.takeWhile p = l
  | [], _ => by simp
  | a :: as, h => by
    have ha : p a = true := h a (by simp)
    have ih := takeWhile_eq_self_of_all as (fun x hx => h x (by simp [hx]))
    simp [List.takeWhile, ha, ih]

/-- Pushing a cons under `getLast?` and `Option.or`. -/
theorem getLast?_cons_or {α : Type} (v : α) (M : List α) (t : Option α) :
    ((v :: M).getLast?).or t = (M.getLast?).or (some v) := by
  cases M with
  | nil => simp [Option.or]
  | cons b bs =>
    rw [List.getLast?_cons_cons]
    have h : (b :: bs).getLast?.isSome := by
      rw [List.getLast?_isSome]; simp
    rcases ho : (b :: bs).getLast? with _ | x
    · rw [ho] at h; simp at h
    · simp [Option.or]

/-- Closed form of the `write_patch` line loop: the output keeps exactly the
non-matching lines in order, and the final topic is the value of the last
matching line, falling back to the incoming topic. -/
theorem write_patch_body_spec (ls : List Str) (t : Option Str) :
    write_patch_body ls t =
      (ls.filter (fun l => !isTopicLine l),
       (((ls.filter isTopicLine).map topicValue).getLast?).or t) := by
  induction ls generalizing t with
  | nil => simp [write_patch_body, Option.or]
  | cons l ls ih =>
    by_cases hl : isTopicLine l = true
    · simp only [write_patch_body, hl, if_pos rfl, ih, List.filter_cons, hl,
        Bool.not_true, List.map_cons]
      refine Prod.ext ?_ ?_
      · simp [hl]
      · simp only [hl]
        simp [getLast?_cons_or]
    · have hl' : isTopicLine l = false := by simp_all
      simp only [write_patch_body, hl', ih, List.filter_cons, hl',
        Bool.not_false]
      simp [hl']

/-- C5 counterexample: with two topic trailer lines, `write_patch` takes the
topic from the *last* matching line (here `b`, not the first match `a`) and
excludes *every* matching line from the output (the second trailer line is
not copied), contradicting the claim that only the first match is special. -/
theorem write_patch_topic_counterexample :
    write_patch_lines cexPatchLines = (["body\n".toList], some ("b".toList)) ∧
    (write_patch_lines cexPatchLines).2 ≠ some ("a".toList) ∧
    ("Gbp-Pq-Topic: b\n".toList) ∉ (write_patch_lines cexPatchLines).1 := by
  refine ⟨by decide, by decide, by decide⟩

/-- C5 amended: `write_patch` discards the first line; among the remaining
lines *every* line whose lowercased form starts with `gbp-pq-topic: ` is
excluded from the output and the topic is the stripped value after the first
space of the *last* such line; all other lines are copied verbatim in order;
the destination directory is the patch directory joined with the topic when
one was found. -/
theorem write_patch_lines_spec :
    (∀ (first : Str) (ls : List Str),
       write_patch_lines (first :: ls) =
         (ls.filter (fun l => !isTopicLine l),
          ((ls.filter isTopicLine).map topicValue).getLast?)) ∧
    (∀ t : Str, write_patch_topicdir (some t) = PATCH_DIR ++ t) ∧
    write_patch_topicdir none = PATCH_DIR := by
  refine ⟨?_, fun t => rfl, rfl⟩
  intro first ls
  show write_patch_body ls none = _
  rw [write_patch_body_spec]
  rcases ho : (((ls.filter isTopicLine).map topicValue).getLast?) with _ | v <;> rfl

/-- C6 counterexample: for the base name `1-a\nb` the source regex
`[0-9]+-(.+)` (unanchored, `.` not crossing a newline) captures just `a`,
which is neither the unchanged name nor the full suffix `a\nb` that the
claimed anchored pattern `^[0-9]+-(.+)$` would give. -/
theorem write_patch_newname_counterexample :
    write_patch_newname false ("1-a\nb".toList) = "a".toList ∧
    specStripName ("1-a\nb".toList) = "a\nb".toList ∧
    "a".toList ≠ "1-a\nb".toList ∧
    ("a".toList : Str) ≠ "a\nb".toList := by
  refine ⟨by decide, by decide, by decide, by decide⟩

/-- C6 amended: on base names without an embedded newline (every name a
patch file can actually have), the destination base name with
`patch_numbers` false is the name with its numeric prefix and hyphen
stripped exactly when the anchored pattern `[0-9]+-(.+)` matches the whole
name, and the unchanged name with `patch_numbers` true. -/
theorem write_patch_newname_spec (s : Str) (h : ('\n' : Char) ∉ s) :
    write_patch_newname false s = specStripName s ∧
    write_patch_newname true s = s := by
  refine ⟨?_, rfl⟩
  by_cases hd : (s.takeWhile Char.isDigit).isEmpty = true
  · have hspec : specStripName s = s := by
      unfold specStripName
      split
      · simp [hd]
      · rfl
    have hcode : write_patch_newname false s = s := by
      unfold write_patch_newname matchNumPatchName
      simp [hd]
    rw [hcode, hspec]
  · have hd' : (s.takeWhile Char.isDigit).isEmpty = false := by
      simpa using hd
    rcases hdrop : s.drop (s.takeWhile Char.isDigit).length with _ | ⟨c, r⟩
    · unfold write_patch_newname matchNumPatchName specStripName
      simp [hd', hdrop]
    · by_cases hc : c = '-'
      · subst hc
        have hr : ('\n' : Char) ∉ r := by
          intro hmem
          exact h (List.mem_of_mem_drop (n := (s.takeWhile Char.isDigit).length)
            (by rw [hdrop]; exact List.mem_cons_of_mem _ hmem))
        have htake : r.takeWhile notNewline = r := by
          refine takeWhile_eq_self_of_all r ?_
          intro a ha
          have hne : a ≠ '\n' := fun hEq => hr (hEq ▸ ha)
          simp [notNewline, hne]
        rcases r with _ | ⟨x, xs⟩
        · unfold write_patch_newname matchNumPatchName specStripName
          simp [hd', hdrop]
        · unfold write_patch_newname matchNumPatchName specStripName
          simp [hd', hdrop, htake]
      · unfold write_patch_newname matchNumPatchName specStripName
        simp [hd', hdrop, hc]

/-- Witness for C6 amended at the spec's own example `0001-fix-bug.patch`. -/
theorem write_patch_newname_spec_witness :
    (('\n' : Char) ∉ ("0001-fix-bug.patch".toList : Str)) ∧
    (write_patch_newname false ("0001-fix-bug.patch".toList) =
       specStripName ("0001-fix-bug.patch".toList) ∧
     write_patch_newname true ("0001-fix-bug.patch".toList) =
       "0001-fix-bug.patch".toList) :=
  ⟨by decide, write_patch_newname_spec ("0001-fix-bug.patch".toList) (by decide)⟩

/-- C7: on a control file with no `Maintainer:` field the function indexes
the empty `readlines()` output and raises `IndexError` instead of returning
`(None, None)`; with a well-formed field it returns the parsed pair, and
with an unparseable field it returns `(None, None)`. -/
theorem get_maintainer_missing_field_raises :
    get_maintainer_from_control [] = Except.error () ∧
    get_maintainer_from_control ["Maintainer not parsed here".toList] ≠ Except.error () ∧
    get_maintainer_from_control ["Jane Doe <jane@example.org>\n".toList] =
      Except.ok (some ("Jane Doe".toList), some ("jane@example.org".toList)) ∧
    get_maintainer_from_control ["Nobody\n".toList] = Except.ok (none, none) := by
  refine ⟨rfl, by decide, by decide, by decide⟩

/-- C9: `_get_env` fails exactly on roles whose upper-case form is neither
`AUTHOR` nor `COMMITTER`, and on a valid role the returned dictionary
contains precisely one `GIT_<ROLE>_NAME` / `_EMAIL` / `_DATE` entry for each
field of the modifier that is set (Python-truthy: present and non-empty,
the codebase's uniform notion of an absent field). -/
theorem GitModifier_getEnv_spec (m : GitModifier) (who : Str) :
    (m.getEnv who = Except.error () ↔
       (who.map Char.toUpper ≠ "AUTHOR".toList ∧
        who.map Char.toUpper ≠ "COMMITTER".toList)) ∧
    (∀ env, m.getEnv who = Except.ok env → ∀ kv,
       kv ∈ env ↔
         ((truthy m.name = true ∧
             kv = (gitEnvKey (who.map Char.toUpper) ("NAME".toList), m.name.getD [])) ∨
          (truthy m.email = true ∧
             kv = (gitEnvKey (who.map Char.toUpper) ("EMAIL".toList), m.email.getD [])) ∨
          (truthy m.date = true ∧
             kv = (gitEnvKey (who.map Char.toUpper) ("DATE".toList), m.date.getD [])))) := by
  by_cases h : who.map Char.toUpper = "AUTHOR".toList ∨
      who.map Char.toUpper = "COMMITTER".toList
  · constructor
    · rw [GitModifier.getEnv, if_pos h]
      constructor
      · intro hbad; cases hbad
      · rintro ⟨h1, h2⟩
        rcases h with h | h
        · exact (h1 h).elim
        · exact (h2 h).elim
    · intro env heq kv
      rw [GitModifier.getEnv, if_pos h] at heq
      injection heq with henv
      subst henv
      rcases htn : truthy m.name <;> rcases hte : truthy m.email <;>
        rcases htd : truthy m.date <;>
          simp [htn, hte, htd, List.mem_append, or_assoc]
  · constructor
    · rw [GitModifier.getEnv, if_neg h]
      push_neg at h
      exact ⟨fun _ => h, fun _ => rfl⟩
    · intro env heq
      rw [GitModifier.getEnv, if_neg h] at heq
      cases heq

/-- Witness for C9: a modifier with truthy name and email queried under the
role `author` contains its `GIT_AUTHOR_NAME` entry. -/
theorem GitModifier_getEnv_spec_witness :
    (gitEnvKey ("AUTHOR".toList) ("NAME".toList), "foo".toList) ∈
      [(gitEnvKey ("AUTHOR".toList) ("NAME".toList), "foo".toList),
       (gitEnvKey ("AUTHOR".toList) ("EMAIL".toList), "bar".toList)] :=
  ((GitModifier_getEnv_spec
      ⟨some ("foo".toList), some ("bar".toList), none⟩ ("author".toList)).2
    [(gitEnvKey ("AUTHOR".toList) ("NAME".toList), "foo".toList),
     (gitEnvKey ("AUTHOR".toList) ("EMAIL".toList), "bar".toList)]
    (by decide) _).mpr (Or.inl ⟨by decide, by decide⟩)

/-- The patch loop succeeds exactly when every patch applies. -/
theorem dropWhile_isEmpty_eq_all {α : Type} (p : α → Bool) (js : List α) :
    (js.dropWhile p).isEmpty = js.all p := by
  induction js with
  | nil => rfl
  | cons j rest ih => by_cases h : p j <;> simp [List.dropWhile_cons, h, ih]

/-- Filtering away one value is idempotent. -/
theorem filter_ne_idem (l : List Str) (b : Str) :
    (l.filter (fun x => x ≠ b)).filter (fun x => x ≠ b) =
      l.filter (fun x => x ≠ b) := by
  induction l with
  | nil => rfl
  | cons a as ih =>
    by_cases h : a = b <;> simp [List.filter_cons, h, ih]

/-- Appending the filtered-away value changes nothing under the filter. -/
theorem filter_ne_append_self (l : List Str) (b : Str) :
    (l ++ [b]).filter (fun x => x ≠ b) = l.filter (fun x => x ≠ b) := by
  simp [List.filter_append]

/-- Rolling back twice is rolling back once. -/
theorem failState_idem (st : RepoState) (branch pq : Str) :
    failState (failState st branch pq) branch pq = failState st branch pq := by
  simp [failState, filter_ne_idem]

/-- A rollback does not touch the snapshot count. -/
theorem failState_snapshots (st : RepoState) (branch pq : Str) :
    (failState st branch pq).snapshots = st.snapshots := rfl

/-- Closed form of the patch loop `applyLoop`: final state, events, and
success flag as functions of the first failing index. -/
theorem applyLoop_spec (ap : Nat → Bool) (branch pq : Str) (st : RepoState)
    (js : List Nat) :
    applyLoop ap branch pq st js =
      ((if (js.dropWhile ap).isEmpty then st
        else deleteBranchSt (setBranchSt st branch) pq),
       applyTraceJs ap branch pq js,
       (js.dropWhile ap).isEmpty) := by
  induction js with
  | nil => simp [applyLoop, applyTraceJs]
  | cons j rest ih =>
    by_cases h : ap j = true
    · rcases hdw : rest.dropWhile ap with _ | ⟨k, ks⟩ <;>
        simp [applyLoop, h, ih, applyTraceJs, List.dropWhile_cons,
          List.takeWhile_cons, hdw]
    · have h' : ap j = false := by simp_all
      simp [applyLoop, h', applyTraceJs, List.dropWhile_cons,
        List.takeWhile_cons]

/-- Closed form of the time-machine loop `tryLoop`: the rolled-back prefix
is the maximal prefix of candidates at which branch creation succeeds but
some patch fails to apply; the loop stops at the first other candidate —
success when creation succeeds there, the creation error otherwise — and
raises the summary error when every candidate was rolled back. -/
theorem tryLoop_spec (env : ImportEnv) (branch pq : Str) :
    ∀ (cs : List Nat) (st : RepoState),
    tryLoop env branch pq st cs =
      (match cs.dropWhile (candFails env) with
       | [] =>
         Except.error (GbpErr.couldNotApply,
           (if (cs.takeWhile (candFails env)).isEmpty then st
            else failState st branch pq),
           (cs.takeWhile (candFails env)).flatMap (candTrace env branch pq))
       | c :: _ =>
         if env.createOk c then
           Except.ok
             ({ branches :=
                  (if (cs.takeWhile (candFails env)).isEmpty then st
                   else failState st branch pq).branches ++ [pq],
                current := pq, snapshots := st.snapshots },
              (cs.takeWhile (candFails env)).flatMap (candTrace env branch pq) ++
                candTrace env branch pq c)
         else
           Except.error (GbpErr.cannotCreate,
             (if (cs.takeWhile (candFails env)).isEmpty then st
              else failState st branch pq),
             (cs.takeWhile (candFails env)).flatMap (candTrace env branch pq) ++
               [Ev.createBranch pq c])) := by
  intro cs
  induction cs with
  | nil => intro st; simp [tryLoop]
  | cons c rest ih =>
    intro st
    by_cases hco : env.createOk c = true
    · by_cases hap : applyAll env c = true
      · have hcf : candFails env c = false := by
          simp [candFails, hco, hap]
        have hemp : ((List.range env.numPatches).dropWhile (env.applyOk c)).isEmpty
            = true := by
          rw [dropWhile_isEmpty_eq_all]; exact hap
        simp only [tryLoop, hco, if_true, applyLoop_spec, hemp]
        simp [List.dropWhile_cons, List.takeWhile_cons, hcf, hco, candTrace,
          createBranchSt, setBranchSt]
      · have hap' : applyAll env c = false := by simp_all
        have hcf : candFails env c = true := by simp [candFails, hco, hap']
        have hemp : ((List.range env.numPatches).dropWhile (env.applyOk c)).isEmpty
            = false := by
          rw [dropWhile_isEmpty_eq_all]; exact hap'
        have hfail :
            deleteBranchSt (setBranchSt (setBranchSt (createBranchSt st pq) pq)
              branch) pq = failState st branch pq := by
          simp [deleteBranchSt, setBranchSt, createBranchSt, failState,
            filter_ne_append_self]
        simp only [tryLoop, hco, if_true, applyLoop_spec, hemp]
        simp only [Bool.false_eq_true, if_false]
        rw [hfail, ih (failState st branch pq)]
        rcases hdw : rest.dropWhile (candFails env) with _ | ⟨c2, cs2⟩
        · simp [List.dropWhile_cons, List.takeWhile_cons, hcf, hdw,
            failState_idem, candTrace]
        · by_cases hco2 : env.createOk c2 = true
          · simp [List.dropWhile_cons, List.takeWhile_cons, hcf, hdw, hco2,
              failState_idem, failState_snapshots, candTrace]
          · have hco2' : env.createOk c2 = false := by simp_all
            simp [List.dropWhile_cons, List.takeWhile_cons, hcf, hdw, hco2',
              failState_idem, candTrace]
    · have hco' : env.createOk c = false := by simp_all
      have hcf : candFails env c = false := by simp [candFails, hco']
      simp [tryLoop, hco', List.dropWhile_cons, List.takeWhile_cons, hcf]

/-- `deleteBranchSt` does not touch the snapshot count. -/
theorem deleteBranchSt_snapshots (st : RepoState) (b : Str) :
    (deleteBranchSt st b).snapshots = st.snapshots := rfl

/-- Full characterization of `import_quilt_patches` under the branch
preconditions the claims assume: the invoked branch is not a patch-queue
branch and, when the target patch-queue branch already exists, `force` is
set.  The candidate list `cs` is named by an equation so each conclusion
can speak about it directly. -/
theorem import_quilt_patches_run (env : ImportEnv) (st : RepoState)
    (branch : Str) (tries : Nat) (force : Bool) (cs : List Nat)
    (hbr : is_pq_branch branch = false)
    (hforce : hasBranch st ( pqBranchMarker ++ branch) = true → force = true)
    (hcs : env.history.take tries = cs) :
    import_quilt_patches env st branch tries force =
      (let pq := pqBranchMarker ++ branch
       let stDrop := if hasBranch st pq then deleteBranchSt st pq else st
       let evsPre : List Ev :=
         (if hasBranch st pq then [Ev.deleteBranch pq] else []) ++
           (if cs.length > 1 then [Ev.mkSnapshot] else [])
       let stSnap := if cs.length > 1 then
           { stDrop with snapshots := stDrop.snapshots + 1 } else stDrop
       let stF := if (cs.takeWhile (candFails env)).isEmpty then stSnap
                  else failState stSnap branch pq
       let tF := evsPre ++
         (cs.takeWhile (candFails env)).flatMap (candTrace env branch pq)
       match cs.dropWhile (candFails env) with
       | [] => Except.error (GbpErr.couldNotApply, stF, tF)
       | c :: _ =>
         if env.createOk c then
           Except.ok
             ({ branches := stF.branches ++ [pq], current := pq,
                snapshots := st.snapshots },
              tF ++ candTrace env branch pq c ++
                (if cs.length > 1 then [Ev.rmSnapshot] else []))
         else
           Except.error (GbpErr.cannotCreate, stF,
             tF ++ [Ev.createBranch pq c])) := by
  have hpqname : pq_branch_name branch = some ( pqBranchMarker ++ branch) := by
    simp [pq_branch_name, hbr]
  have hres : importResolve st branch force =
      Except.ok (branch, pqBranchMarker ++ branch, st, []) := by
    simp [importResolve, hbr, hpqname]
  by_cases hhb : hasBranch st ( pqBranchMarker ++ branch) = true
  · have hf : force = true := hforce hhb
    subst hf
    have hdrop : drop_pq st branch =
        Except.ok (deleteBranchSt st ( pqBranchMarker ++ branch),
          [Ev.deleteBranch ( pqBranchMarker ++ branch)]) := by
      simp [drop_pq, hbr, hpqname, hhb]
    simp only [import_quilt_patches, importAfterResolve, importCheckExisting,
      hres, hhb, if_true, hdrop, hcs]
    rw [tryLoop_spec]
    by_cases hlen : cs.length > 1
    · rcases hdw : cs.dropWhile (candFails env) with _ | ⟨c, cs2⟩
      · simp [hdw, hhb, hlen, List.append_assoc]
      · by_cases hco : env.createOk c = true
        · simp [hdw, hhb, hlen, hco, List.append_assoc, failState_snapshots,
            deleteBranchSt_snapshots, deleteBranchSt, failState]
        · have hco' : env.createOk c = false := by simp_all
          simp [hdw, hhb, hlen, hco', List.append_assoc]
    · rcases hdw : cs.dropWhile (candFails env) with _ | ⟨c, cs2⟩
      · simp [hdw, hhb, hlen, List.append_assoc]
      · by_cases hco : env.createOk c = true
        · simp [hdw, hhb, hlen, hco, List.append_assoc, failState_snapshots,
            deleteBranchSt_snapshots, deleteBranchSt, failState]
        · have hco' : env.createOk c = false := by simp_all
          simp [hdw, hhb, hlen, hco', List.append_assoc]
  · have hhb' : hasBranch st ( pqBranchMarker ++ branch) = false := by
      simp_all
    simp only [import_quilt_patches, importAfterResolve, importCheckExisting,
      hres, hhb', Bool.false_eq_true, if_false, hcs]
    rw [tryLoop_spec]
    by_cases hlen : cs.length > 1
    · rcases hdw : cs.dropWhile (candFails env) with _ | ⟨c, cs2⟩
      · simp [hdw, hhb', hlen, List.append_assoc]
      · by_cases hco : env.createOk c = true
        · simp [hdw, hhb', hlen, hco, List.append_assoc, failState_snapshots,
            failState]
        · have hco' : env.createOk c = false := by simp_all
          simp [hdw, hhb', hlen, hco', List.append_assoc]
    · rcases hdw : cs.dropWhile (candFails env) with _ | ⟨c, cs2⟩
      · simp [hdw, hhb', hlen, List.append_assoc]
      · by_cases hco : env.createOk c = true
        · simp [hdw, hhb', hlen, hco, List.append_assoc, failState_snapshots,
            failState]
        · have hco' : env.createOk c = false := by simp_all
          simp [hdw, hhb', hlen, hco', List.append_assoc]

/-- The patch loop never touches the snapshot machinery. -/
theorem snapshot_not_mem_applyTraceJs (ap : Nat → Bool) (branch pq : Str)
    (js : List Nat) :
    Ev.mkSnapshot ∉ applyTraceJs ap branch pq js ∧
    Ev.rmSnapshot ∉ applyTraceJs ap branch pq js := by
  unfold applyTraceJs
  rcases js.dropWhile ap with _ | ⟨j, _⟩ <;> simp

/-- A candidate attempt never touches the snapshot machinery. -/
theorem snapshot_not_mem_candTrace (env : ImportEnv) (branch pq : Str)
    (c : Nat) :
    Ev.mkSnapshot ∉ candTrace env branch pq c ∧
    Ev.rmSnapshot ∉ candTrace env branch pq c := by
  have h := snapshot_not_mem_applyTraceJs (env.applyOk c) branch pq
    (List.range env.numPatches)
  simp [candTrace, h.1, h.2]

/-- The rolled-back prefix of the time machine never touches the snapshot
machinery. -/
theorem snapshot_not_mem_flatMap (env : ImportEnv) (branch pq : Str)
    (F : List Nat) :
    Ev.mkSnapshot ∉ F.flatMap (candTrace env branch pq) ∧
    Ev.rmSnapshot ∉ F.flatMap (candTrace env branch pq) := by
  constructor
  · intro hmem
    rcases List.mem_flatMap.mp hmem with ⟨c, _, hc⟩
    exact (snapshot_not_mem_candTrace env branch pq c).1 hc
  · intro hmem
    rcases List.mem_flatMap.mp hmem with ⟨c, _, hc⟩
    exact (snapshot_not_mem_candTrace env branch pq c).2 hc

/-- C1: under the branch preconditions, the candidate list `cs` enumerated
from the first-parent walk holds at most `tries` commits, most recent first;
every candidate of the rolled-back prefix had its branch created and some
patch fail (after which the engine switched back and deleted the branch, as
the trace and state in the closed form record); the run is the closed form:
the summary error when every candidate rolled back, an immediately fatal
creation error or full success at the first candidate that stops the walk —
so candidates are consumed strictly in order and the first success ends the
run. -/
theorem import_quilt_patches_time_machine (env : ImportEnv) (st : RepoState)
    (branch : Str) (tries : Nat) (force : Bool) (cs : List Nat)
    (hbr : is_pq_branch branch = false)
    (hforce : hasBranch st ( pqBranchMarker ++ branch) = true → force = true)
    (hcs : env.history.take tries = cs) :
    cs.length ≤ tries ∧
    (∀ c ∈ cs.takeWhile (candFails env),
       env.createOk c = true ∧ applyAll env c = false) ∧
    import_quilt_patches env st branch tries force =
      (let pq := pqBranchMarker ++ branch
       let stDrop := if hasBranch st pq then deleteBranchSt st pq else st
       let evsPre : List Ev :=
         (if hasBranch st pq then [Ev.deleteBranch pq] else []) ++
           (if cs.length > 1 then [Ev.mkSnapshot] else [])
       let stSnap := if cs.length > 1 then
           { stDrop with snapshots := stDrop.snapshots + 1 } else stDrop
       let stF := if (cs.takeWhile (candFails env)).isEmpty then stSnap
                  else failState stSnap branch pq
       let tF := evsPre ++
         (cs.takeWhile (candFails env)).flatMap (candTrace env branch pq)
       match cs.dropWhile (candFails env) with
       | [] => Except.error (GbpErr.couldNotApply, stF, tF)
       | c :: _ =>
         if env.createOk c then
           Except.ok
             ({ branches := stF.branches ++ [pq], current := pq,
                snapshots := st.snapshots },
              tF ++ candTrace env branch pq c ++
                (if cs.length > 1 then [Ev.rmSnapshot] else []))
         else
           Except.error (GbpErr.cannotCreate, stF,
             tF ++ [Ev.createBranch pq c])) := by
  refine ⟨?_, ?_, import_quilt_patches_run env st branch tries force cs hbr hforce hcs⟩
  · rw [← hcs]; exact List.length_take_le tries env.history
  · intro c hc
    have h := List.mem_takeWhile_imp hc
    rw [candFails] at h
    rcases Bool.and_eq_true _ _ |>.mp h with ⟨h1, h2⟩
    exact ⟨h1, by simpa using h2⟩

/-- Witness for C1: two candidates, the series failing at the tip commit `5`
and applying at its parent `4` — the run rolls back once and succeeds at the
second candidate. -/
theorem import_quilt_patches_time_machine_witness :
    import_quilt_patches
        (ImportEnv.mk [5, 4, 3] (fun _ => true) (fun c _ => decide (c = 4)) 1)
        (RepoState.mk ["master".toList] ("master".toList) 0)
        ("master".toList) 2 false =
      Except.ok
        (RepoState.mk ["master".toList, "patch-queue/master".toList]
           ("patch-queue/master".toList) 0,
         [Ev.mkSnapshot,
          Ev.createBranch ("patch-queue/master".toList) 5,
          Ev.setBranch ("patch-queue/master".toList),
          Ev.applyPatch 0, Ev.setBranch ("master".toList),
          Ev.deleteBranch ("patch-queue/master".toList),
          Ev.createBranch ("patch-queue/master".toList) 4,
          Ev.setBranch ("patch-queue/master".toList),
          Ev.applyPatch 0, Ev.rmSnapshot]) := by
  have h := import_quilt_patches_time_machine
    (ImportEnv.mk [5, 4, 3] (fun _ => true) (fun c _ => decide (c = 4)) 1)
    (RepoState.mk ["master".toList] ("master".toList) 0)
    ("master".toList) 2 false [5, 4] (by decide) (by decide) (by decide)
  exact h.2.2.trans (by decide)

/-- C2 counterexample: two candidates are enumerated (so a snapshot is
created) and every candidate fails, and the summary error is raised with the
snapshot directory still present — the exhaustion path returns with one
snapshot directory left behind, because the `GbpError` is raised before the
cleanup statement. -/
theorem import_snapshot_leak_counterexample :
    import_quilt_patches
        (ImportEnv.mk [9, 8] (fun _ => true) (fun _ _ => false) 1)
        (RepoState.mk ["master".toList] ("master".toList) 0)
        ("master".toList) 2 false =
      Except.error (GbpErr.couldNotApply,
        RepoState.mk ["master".toList] ("master".toList) 1,
        [Ev.mkSnapshot,
         Ev.createBranch ("patch-queue/master".toList) 9,
         Ev.setBranch ("patch-queue/master".toList),
         Ev.applyPatch 0, Ev.setBranch ("master".toList),
         Ev.deleteBranch ("patch-queue/master".toList),
         Ev.createBranch ("patch-queue/master".toList) 8,
         Ev.setBranch ("patch-queue/master".toList),
         Ev.applyPatch 0, Ev.setBranch ("master".toList),
         Ev.deleteBranch ("patch-queue/master".toList)]) ∧
    (RepoState.mk ["master".toList] ("master".toList) 1).snapshots ≠ 0 := by
  refine ⟨by decide, by decide⟩

/-- C2 amended: the snapshot is created exactly when more than one candidate
commit is enumerated; on the success path it is removed before the call
returns (net snapshot count unchanged, and the trace records the removal);
on the exhaustion path the fatal error is raised *before* the cleanup
statement, so the snapshot directory is left behind and the trace records no
removal. -/
theorem import_snapshot_amended (env : ImportEnv) (st : RepoState)
    (branch : Str) (tries : Nat) (force : Bool) (cs : List Nat)
    (hbr : is_pq_branch branch = false)
    (hforce : hasBranch st ( pqBranchMarker ++ branch) = true → force = true)
    (hcs : env.history.take tries = cs) :
    (∀ stOk evs,
       import_quilt_patches env st branch tries force = Except.ok (stOk, evs) →
       stOk.snapshots = st.snapshots ∧
       ((Ev.mkSnapshot ∈ evs) ↔ cs.length > 1) ∧
       ((Ev.rmSnapshot ∈ evs) ↔ cs.length > 1)) ∧
    (∀ stE evs,
       import_quilt_patches env st branch tries force =
         Except.error (GbpErr.couldNotApply, stE, evs) →
       stE.snapshots = st.snapshots + (if cs.length > 1 then 1 else 0) ∧
       Ev.rmSnapshot ∉ evs) := by
  have hrun := import_quilt_patches_run env st branch tries force cs hbr hforce hcs
  have hfm := snapshot_not_mem_flatMap env branch ( pqBranchMarker ++ branch)
    (cs.takeWhile (candFails env))
  constructor
  · intro stOk evs heq
    rw [hrun] at heq
    rcases hdw : cs.dropWhile (candFails env) with _ | ⟨c, cs2⟩
    · simp only [hdw] at heq
      exact Except.noConfusion heq
    · by_cases hco : env.createOk c = true
      · have hct := snapshot_not_mem_candTrace env branch ( pqBranchMarker ++ branch) c
        simp only [hdw, hco, if_true, Except.ok.injEq, Prod.mk.injEq] at heq
        obtain ⟨h1, h2⟩ := heq
        subst h1; subst h2
        refine ⟨rfl, ?_, ?_⟩
        · by_cases hlen : cs.length > 1 <;>
            by_cases hhb : hasBranch st ( pqBranchMarker ++ branch) = true <;>
              simp [hlen, hhb, List.mem_append, hfm.1, hct.1]
        · by_cases hlen : cs.length > 1 <;>
            by_cases hhb : hasBranch st ( pqBranchMarker ++ branch) = true <;>
              simp [hlen, hhb, List.mem_append, hfm.2, hct.2]
      · have hco' : env.createOk c = false := by simp_all
        simp only [hdw, hco', Bool.false_eq_true, if_false] at heq
        exact Except.noConfusion heq
  · intro stE evs heq
    rw [hrun] at heq
    rcases hdw : cs.dropWhile (candFails env) with _ | ⟨c, cs2⟩
    · simp only [hdw, Except.error.injEq, Prod.mk.injEq] at heq
      obtain ⟨-, h1, h2⟩ := heq
      subst h1; subst h2
      constructor
      · by_cases hF : (cs.takeWhile (candFails env)).isEmpty = true <;>
          by_cases hlen : cs.length > 1 <;>
            by_cases hhb : hasBranch st ( pqBranchMarker ++ branch) = true <;>
              simp [hF, hlen, hhb, failState_snapshots, deleteBranchSt_snapshots,
                failState, deleteBranchSt]
      · by_cases hlen : cs.length > 1 <;>
          by_cases hhb : hasBranch st ( pqBranchMarker ++ branch) = true <;>
            simp [hlen, hhb, List.mem_append, hfm.2]
    · by_cases hco : env.createOk c = true
      · simp only [hdw, hco, if_true] at heq
        exact Except.noConfusion heq
      · have hco' : env.createOk c = false := by simp_all
        simp only [hdw, hco', Bool.false_eq_true, if_false,
          Except.error.injEq, Prod.mk.injEq] at heq
        exact absurd heq.1 (by decide)

/-- Witness for C2 amended: a successful two-candidate run creates and then
removes the snapshot, with net snapshot count zero. -/
theorem import_snapshot_amended_witness :
    (RepoState.mk ["master".toList, "patch-queue/master".toList]
        ("patch-queue/master".toList) 0).snapshots =
      (RepoState.mk ["master".toList] ("master".toList) 0).snapshots ∧
    ((Ev.mkSnapshot ∈
        [Ev.mkSnapshot,
         Ev.createBranch ("patch-queue/master".toList) 5,
         Ev.setBranch ("patch-queue/master".toList),
         Ev.applyPatch 0, Ev.setBranch ("master".toList),
         Ev.deleteBranch ("patch-queue/master".toList),
         Ev.createBranch ("patch-queue/master".toList) 4,
         Ev.setBranch ("patch-queue/master".toList),
         Ev.applyPatch 0, Ev.rmSnapshot]) ↔ ([5, 4] : List Nat).length > 1) ∧
    ((Ev.rmSnapshot ∈
        [Ev.mkSnapshot,
         Ev.createBranch ("patch-queue/master".toList) 5,
         Ev.setBranch ("patch-queue/master".toList),
         Ev.applyPatch 0, Ev.setBranch ("master".toList),
         Ev.deleteBranch ("patch-queue/master".toList),
         Ev.createBranch ("patch-queue/master".toList) 4,
         Ev.setBranch ("patch-queue/master".toList),
         Ev.applyPatch 0, Ev.rmSnapshot]) ↔ ([5, 4] : List Nat).length > 1) :=
  (import_snapshot_amended
      (ImportEnv.mk [5, 4] (fun _ => true) (fun c _ => decide (c = 4)) 1)
      (RepoState.mk ["master".toList] ("master".toList) 0)
      ("master".toList) 2 false [5, 4] (by decide) (by decide) (by decide)).1
    (RepoState.mk ["master".toList, "patch-queue/master".toList]
        ("patch-queue/master".toList) 0)
    [Ev.mkSnapshot,
     Ev.createBranch ("patch-queue/master".toList) 5,
     Ev.setBranch ("patch-queue/master".toList),
     Ev.applyPatch 0, Ev.setBranch ("master".toList),
     Ev.deleteBranch ("patch-queue/master".toList),
     Ev.createBranch ("patch-queue/master".toList) 4,
     Ev.setBranch ("patch-queue/master".toList),
     Ev.applyPatch 0, Ev.rmSnapshot] (by decide)

/-- Deleting a branch makes `has_branch` false for it. -/
theorem hasBranch_deleteBranchSt (st : RepoState) (b : Str) :
    hasBranch (deleteBranchSt st b) b = false := by
  simp [hasBranch, deleteBranchSt]

/-- The events recorded before the branch normalisation returned are a pure
prefix of whatever the rest of the import produces. -/
theorem importAfterResolve_consEv (env : ImportEnv) (branch pq : Str)
    (force : Bool) (tries : Nat) (st1 : RepoState) (e : Ev) (evs1 : List Ev) :
    importAfterResolve env branch pq force tries st1 (e :: evs1) =
      consEv e (importAfterResolve env branch pq force tries st1 evs1) := by
  unfold importAfterResolve
  rcases hchk : importCheckExisting st1 branch pq force with e2 | ⟨st2, evs2⟩
  · simp [consEv]
  · simp only []
    rcases htl : tryLoop env branch pq
        (if (env.history.take tries).length > 1 then
           { st2 with snapshots := st2.snapshots + 1 } else st2)
        (env.history.take tries) with ⟨e3, st4, evs4⟩ | ⟨st4, evs4⟩
    · simp [htl, consEv]
    · simp [htl, consEv]
      by_cases hP : 1 < tries ∧ 1 < env.history.length <;> simp [hP, consEv]

/-- C8 precondition handling of `import_quilt_patches`: invoked on a
patch-queue branch without `force` it fails fatally at once; invoked with an
existing target patch-queue branch and no `force` it fails fatally with the
already-exists error; with `force` it instead checks out the base branch and
restarts from it (first case), or deletes the existing patch-queue branch
(drop semantics) and proceeds (second case). -/
theorem import_preconditions (env : ImportEnv) (tries : Nat) :
    (∀ (st : RepoState) (branch : Str), is_pq_branch branch = true →
       import_quilt_patches env st branch tries false =
         Except.error (GbpErr.alreadyOnPq, st, [])) ∧
    (∀ (st : RepoState) (branch : Str), is_pq_branch branch = false →
       hasBranch st ( pqBranchMarker ++ branch) = true →
       import_quilt_patches env st branch tries false =
         Except.error (GbpErr.pqExists, st, [])) ∧
    (∀ (st : RepoState) (b : Str), is_pq_branch b = false →
       import_quilt_patches env st ( pqBranchMarker ++ b) tries true =
         consEv (Ev.checkout b)
           (import_quilt_patches env (setBranchSt st b) b tries true)) ∧
    (∀ (st : RepoState) (branch : Str), is_pq_branch branch = false →
       hasBranch st ( pqBranchMarker ++ branch) = true →
       import_quilt_patches env st branch tries true =
         consEv (Ev.deleteBranch ( pqBranchMarker ++ branch))
           (import_quilt_patches env
              (deleteBranchSt st ( pqBranchMarker ++ branch))
              branch tries true)) := by
  refine ⟨?_, ?_, ?_, ?_⟩
  · intro st branch h
    simp [import_quilt_patches, importResolve, h]
  · intro st branch h hhb
    have hname : pq_branch_name branch = some ( pqBranchMarker ++ branch) := by
      simp [pq_branch_name, h]
    simp [import_quilt_patches, importResolve, h, hname, importAfterResolve,
      importCheckExisting, hhb]
  · intro st b hb
    have hpq : is_pq_branch ( pqBranchMarker ++ b) = true := by
      simp [is_pq_branch, isPrefixOf_append_self]
    have hname : pq_branch_name b = some ( pqBranchMarker ++ b) := by
      simp [pq_branch_name, hb]
    have hbase2 : pq_branch_base ( pqBranchMarker ++ b) = some b := by
      simp [pq_branch_base, hpq, drop_length_append_left]
    have hres1 : importResolve st ( pqBranchMarker ++ b) true =
        Except.ok (b, pqBranchMarker ++ b, setBranchSt st b, [Ev.checkout b]) := by
      simp [importResolve, hpq, hbase2, hname]
    have hres2 : importResolve (setBranchSt st b) b true =
        Except.ok (b, pqBranchMarker ++ b, setBranchSt st b, []) := by
      simp [importResolve, hb, hname]
    simp only [import_quilt_patches, hres1, hres2]
    exact importAfterResolve_consEv env b ( pqBranchMarker ++ b) true tries
      (setBranchSt st b) (Ev.checkout b) []
  · intro st branch h hhb
    have hname : pq_branch_name branch = some ( pqBranchMarker ++ branch) := by
      simp [pq_branch_name, h]
    have hres1 : importResolve st branch true =
        Except.ok (branch, pqBranchMarker ++ branch, st, []) := by
      simp [importResolve, h, hname]
    have hres2 : importResolve (deleteBranchSt st ( pqBranchMarker ++ branch))
          branch true =
        Except.ok (branch, pqBranchMarker ++ branch,
          deleteBranchSt st ( pqBranchMarker ++ branch), []) := by
      simp [importResolve, h, hname]
    have hdrop : drop_pq st branch =
        Except.ok (deleteBranchSt st ( pqBranchMarker ++ branch),
          [Ev.deleteBranch ( pqBranchMarker ++ branch)]) := by
      simp [drop_pq, h, hname, hhb]
    have hchk1 : importCheckExisting st branch ( pqBranchMarker ++ branch) true =
        Except.ok (deleteBranchSt st ( pqBranchMarker ++ branch),
          [Ev.deleteBranch ( pqBranchMarker ++ branch)]) := by
      simp [importCheckExisting, hhb, hdrop]
    have hchk2 : importCheckExisting
          (deleteBranchSt st ( pqBranchMarker ++ branch)) branch
          ( pqBranchMarker ++ branch) true =
        Except.ok (deleteBranchSt st ( pqBranchMarker ++ branch), []) := by
      simp [importCheckExisting, hasBranch_deleteBranchSt]
    simp only [import_quilt_patches, hres1, hres2, importAfterResolve,
      hchk1, hchk2]
    rcases htl : tryLoop env branch ( pqBranchMarker ++ branch)
        (if (env.history.take tries).length > 1 then
           { deleteBranchSt st ( pqBranchMarker ++ branch) with
               snapshots :=
                 (deleteBranchSt st ( pqBranchMarker ++ branch)).snapshots + 1 }
         else deleteBranchSt st ( pqBranchMarker ++ branch))
        (env.history.take tries) with ⟨e3, st4, evs4⟩ | ⟨st4, evs4⟩
    · simp [htl, consEv]
    · simp [htl, consEv]
      by_cases hP : 1 < tries ∧ 1 < env.history.length <;> simp [hP]

/-- Witness for C8 at concrete repository states: each of the four
precondition behaviours instantiated. -/
theorem import_preconditions_witness :
    (import_quilt_patches (ImportEnv.mk [7] (fun _ => true) (fun _ _ => true) 0)
        (RepoState.mk ["patch-queue/master".toList]
           ("patch-queue/master".toList) 0)
        ("patch-queue/master".toList) 1 false =
      Except.error (GbpErr.alreadyOnPq,
        RepoState.mk ["patch-queue/master".toList]
          ("patch-queue/master".toList) 0, [])) ∧
    (import_quilt_patches (ImportEnv.mk [7] (fun _ => true) (fun _ _ => true) 0)
        (RepoState.mk ["master".toList, "patch-queue/master".toList]
           ("master".toList) 0)
        ("master".toList) 1 false =
      Except.error (GbpErr.pqExists,
        RepoState.mk ["master".toList, "patch-queue/master".toList]
          ("master".toList) 0, [])) ∧
    (import_quilt_patches (ImportEnv.mk [7] (fun _ => true) (fun _ _ => true) 0)
        (RepoState.mk ["master".toList] ("master".toList) 0)
        ( pqBranchMarker ++ "master".toList) 1 true =
      consEv (Ev.checkout ("master".toList))
        (import_quilt_patches
          (ImportEnv.mk [7] (fun _ => true) (fun _ _ => true) 0)
          (setBranchSt (RepoState.mk ["master".toList] ("master".toList) 0)
            ("master".toList))
          ("master".toList) 1 true)) ∧
    (import_quilt_patches (ImportEnv.mk [7] (fun _ => true) (fun _ _ => true) 0)
        (RepoState.mk ["master".toList, "patch-queue/master".toList]
           ("master".toList) 0)
        ("master".toList) 1 true =
      consEv (Ev.deleteBranch ( pqBranchMarker ++ "master".toList))
        (import_quilt_patches
          (ImportEnv.mk [7] (fun _ => true) (fun _ _ => true) 0)
          (deleteBranchSt
            (RepoState.mk ["master".toList, "patch-queue/master".toList]
              ("master".toList) 0)
            ( pqBranchMarker ++ "master".toList))
          ("master".toList) 1 true)) :=
  ⟨(import_preconditions (ImportEnv.mk [7] (fun _ => true) (fun _ _ => true) 0)
      1).1 _ _ (by decide),
   (import_preconditions (ImportEnv.mk [7] (fun _ => true) (fun _ _ => true) 0)
      1).2.1 _ _ (by decide) (by decide),
   (import_preconditions (ImportEnv.mk [7] (fun _ => true) (fun _ _ => true) 0)
      1).2.2.1 _ _ (by decide),
   (import_preconditions (ImportEnv.mk [7] (fun _ => true) (fun _ _ => true) 0)
      1).2.2.2 _ _ (by decide) (by decide)⟩

/-- C10: the dispatcher's `tries` value is the configured time-machine value
when strictly positive and `1` otherwise, hence always at least one; with a
nonempty history the enumerated candidate list is therefore nonempty, so at
least one candidate commit is attempted even for zero or negative
configured values. -/
theorem main_import_tries_spec :
    (∀ tm : Int, 1 ≤ main_import_tries tm) ∧
    (∀ tm : Int, 0 < tm → main_import_tries tm = tm) ∧
    (∀ tm : Int, tm ≤ 0 → main_import_tries tm = 1) ∧
    (∀ (tm : Int) (env : ImportEnv), env.history ≠ [] →
       env.history.take (main_import_tries tm).toNat ≠ []) := by
  refine ⟨?_, ?_, ?_, ?_⟩
  · intro tm; unfold main_import_tries; split <;> omega
  · intro tm h; unfold main_import_tries; split <;> omega
  · intro tm h; unfold main_import_tries; split <;> omega
  · intro tm env hne
    have h2 : 1 ≤ (main_import_tries tm).toNat := by
      unfold main_import_tries; split <;> omega
    rcases henv : env.history with _ | ⟨h0, hs⟩
    · exact absurd henv hne
    · rcases hN : (main_import_tries tm).toNat with _ | k
      · omega
      · simp [hN, List.take_succ_cons]

/-- Witness for C10 at the configured values `0`, `3` and `-2` and a
single-commit history. -/
theorem main_import_tries_spec_witness :
    (1 ≤ main_import_tries 0) ∧
    main_import_tries 3 = 3 ∧
    main_import_tries (-2) = 1 ∧
    (ImportEnv.mk [7] (fun _ => true) (fun _ _ => true) 0).history.take
        (main_import_tries 0).toNat ≠ [] :=
  ⟨main_import_tries_spec.1 0,
   main_import_tries_spec.2.1 3 (by decide),
   main_import_tries_spec.2.2.1 (-2) (by decide),
   main_import_tries_spec.2.2.2 0
     (ImportEnv.mk [7] (fun _ => true) (fun _ _ => true) 0) (by decide)⟩
